import Mathlib

/-!
Shallow embedding of the Roloi streams contract (an ink! smart contract):
the data model and operations of src/stream.rs, src/utils.rs,
src/errors.rs and the contract messages of src/lib.rs.

Modelling conventions:
- Rust machine integers (u64 timestamps, u128 balances) are modelled as
  Nat.  Rust subtraction, which would trap on underflow, is modelled by
  truncated Nat subtraction; the conditions under which every subtraction
  in the code is underflow-free are proved as separate inequalities.
- AccountId values are opaque comparable identifiers, modelled as Nat.
- The ambient ink! environment of one message call (caller, transferred
  value, block timestamp in milliseconds, and the outcome of the outward
  balance transfer) is passed explicitly as an Env record.
- The ink_storage Mapping from u64 to Stream is modelled as an
  association list with point lookup and overwriting insert.
-/

deriving instance DecidableEq for Except

namespace Roloi

/-- Error enumeration of the contract, from src/errors.rs. -/
inductive ContractError
  | ValidationError
  | Unauthorized
  | GeneralError
  | StreamDoesNotExist
  | EndDateAndDurationAreEmpty
  | StreamDurationShouldBeGreater
  | StreamEndDateShouldBeLater
  | StreamAvailableBalanceIsZero
  | EmptyFunds
  | ExpectedWithdrawalAmountExceedsStreamAvailableBalance
  | RecipientCannotBePayer
  | WithdrawTransferFailed
  | WithdrawalAmountShouldBeGreaterThanZero
  | Unexpected
deriving DecidableEq

/-- Minimum duration that a stream can have, in seconds (src/stream.rs). -/
def STREAM_MINIMUM_DURATION : Nat := 300

/-- Struct for storing streams (src/stream.rs). -/
structure Stream where
  payer : Nat
  recipient : Nat
  original_balance : Nat
  current_balance : Nat
  start_date : Nat
  end_date : Nat
deriving DecidableEq

/-- Constructor of a stream (src/stream.rs, Stream::new). -/
def Stream.new (payer recipient stream_funds start_date end_date : Nat) : Stream :=
  { payer := payer
    recipient := recipient
    original_balance := stream_funds
    current_balance := stream_funds
    start_date := start_date
    end_date := end_date }

/-- Reduces the current stream balance by the specified amount
(src/stream.rs, Stream::withdraw).  The Rust method mutates self; here the
updated stream is returned. -/
def Stream.withdraw (s : Stream) (amount : Nat) : Except ContractError Stream :=
  if s.current_balance < amount then
    Except.error ContractError.ExpectedWithdrawalAmountExceedsStreamAvailableBalance
  else
    Except.ok { s with current_balance := s.current_balance - amount }

/-- Check if the stream is finished (src/stream.rs, Stream::is_finished). -/
def Stream.is_finished (s : Stream) (current_time : Nat) : Bool :=
  decide (s.end_date < current_time)

/-- Total duration of the stream (src/stream.rs, Stream::total_duration). -/
def Stream.total_duration (s : Stream) : Nat :=
  s.end_date - s.start_date

/-- Available balance of the stream based on the elapsed time
(src/stream.rs, Stream::get_available_balance). -/
def Stream.get_available_balance (s : Stream) (current_time : Nat) :
    Except ContractError Nat :=
  let balance_withdrawn : Nat := s.original_balance - s.current_balance
  let available_balance :=
    if s.is_finished current_time then
      s.original_balance - balance_withdrawn
    else
      let elapsed_time := current_time - s.start_date
      let unlocked_balance := s.original_balance * elapsed_time / s.total_duration
      unlocked_balance - balance_withdrawn
  if available_balance = 0 then
    Except.error ContractError.StreamAvailableBalanceIsZero
  else
    Except.ok available_balance

/-- Check if the caller has permission to withdraw from the stream
(src/stream.rs, Stream::has_permission_to_withdraw). -/
def Stream.has_permission_to_withdraw (s : Stream) (caller : Nat) :
    Except ContractError Unit :=
  if caller ≠ s.recipient then
    Except.error ContractError.Unauthorized
  else
    Except.ok ()

/-- Validates the stream end date (src/utils.rs, validate_stream_end_date). -/
def validate_stream_end_date (start_date end_date : Nat) : Except ContractError Unit :=
  if end_date < start_date + STREAM_MINIMUM_DURATION then
    Except.error ContractError.StreamEndDateShouldBeLater
  else
    Except.ok ()

/-- Validates the stream duration (src/utils.rs, validate_stream_duration). -/
def validate_stream_duration (duration : Nat) : Except ContractError Unit :=
  if duration < STREAM_MINIMUM_DURATION then
    Except.error ContractError.StreamDurationShouldBeGreater
  else
    Except.ok ()

/-- Validates and generates the stream end date from the date parameters of
the create_stream message (src/utils.rs, validate_and_generate_stream_end_date).
Option.get! plays the role of Option::unwrap, which in the source is only
called under the corresponding non-None guard. -/
def validate_and_generate_stream_end_date (end_date duration : Option Nat)
    (start_date : Nat) : Except ContractError Nat :=
  if end_date = none ∧ duration = none then
    Except.error ContractError.EndDateAndDurationAreEmpty
  else if end_date ≠ none then
    match validate_stream_end_date start_date end_date.get! with
    | Except.error e => Except.error e
    | Except.ok _ => Except.ok end_date.get!
  else if duration ≠ none then
    match validate_stream_duration duration.get! with
    | Except.error e => Except.error e
    | Except.ok _ => Except.ok (start_date + duration.get!)
  else
    Except.error ContractError.Unexpected

/-- Validates the create_stream message parameters
(src/utils.rs, validate_stream_creation_parameters). -/
def validate_stream_creation_parameters (payer recipient funds : Nat) :
    Except ContractError Unit :=
  if payer = recipient then
    Except.error ContractError.RecipientCannotBePayer
  else if funds ≤ 0 then
    Except.error ContractError.EmptyFunds
  else
    Except.ok ()

/-- Validates the withdrawal_amount parameter of the recipient_withdraw
message (src/utils.rs, validate_recipient_withdrawal_amount). -/
def validate_recipient_withdrawal_amount (withdrawal_amount : Option Nat) :
    Except ContractError Unit :=
  if withdrawal_amount ≠ none ∧ withdrawal_amount.get! = 0 then
    Except.error ContractError.WithdrawalAmountShouldBeGreaterThanZero
  else
    Except.ok ()

/-- Ambient ink! environment of a single message call: the caller identity,
the value transferred with the call, the block timestamp in milliseconds,
and whether the outward transfer performed by recipient_withdraw succeeds. -/
structure Env where
  caller : Nat
  transferred_value : Nat
  block_timestamp : Nat
  transfer_ok : Bool
deriving DecidableEq

/-- Time of the current block in seconds
(src/utils.rs, get_current_time_in_seconds): block timestamp is in
milliseconds and is divided by 1000. -/
def get_current_time_in_seconds (env : Env) : Nat :=
  env.block_timestamp / 1000

/-- The ink_storage Mapping from stream id to Stream, as an association list. -/
abbrev Mapping := List (Nat × Stream)

/-- Overwriting insert into the mapping. -/
def Mapping.insert : Mapping → Nat → Stream → Mapping
  | [], key, value => [(key, value)]
  | (k, v) :: rest, key, value =>
    if k = key then (key, value) :: rest
    else (k, v) :: Mapping.insert rest key value

/-- Point lookup in the mapping. -/
def Mapping.get : Mapping → Nat → Option Stream
  | [], _ => none
  | (k, v) :: rest, key => if key = k then some v else Mapping.get rest key

/-- Storage of the contract (src/lib.rs, StreamsContract). -/
structure StreamsContract where
  owner : Nat
  next_stream_id : Nat
  streams : Mapping
deriving DecidableEq

/-- Constructor of the contract (src/lib.rs, StreamsContract::new). -/
def StreamsContract.new (deployer : Nat) : StreamsContract :=
  { owner := deployer, next_stream_id := 1, streams := [] }

/-- Returns a stream by its ID (src/lib.rs, get_stream_by_id). -/
def get_stream_by_id (c : StreamsContract) (stream_id : Nat) :
    Except ContractError Stream :=
  match Mapping.get c.streams stream_id with
  | some stream => Except.ok stream
  | none => Except.error ContractError.StreamDoesNotExist

/-- Creates a token stream (src/lib.rs, create_stream).  Returns the
contract state after the call together with the message result. -/
def create_stream (c : StreamsContract) (env : Env) (recipient : Nat)
    (end_date duration : Option Nat) :
    StreamsContract × Except ContractError Nat :=
  let start_date := get_current_time_in_seconds env
  let caller := env.caller
  let stream_funds := env.transferred_value
  match validate_stream_creation_parameters caller recipient stream_funds with
  | Except.error e => (c, Except.error e)
  | Except.ok _ =>
    match validate_and_generate_stream_end_date end_date duration start_date with
    | Except.error e => (c, Except.error e)
    | Except.ok stream_end_date =>
      let new_stream :=
        Stream.new caller recipient stream_funds start_date stream_end_date
      let new_stream_id := c.next_stream_id
      ({ c with
          streams := Mapping.insert c.streams new_stream_id new_stream
          next_stream_id := c.next_stream_id + 1 },
       Except.ok new_stream_id)

/-- Withdraws tokens from a stream (src/lib.rs, recipient_withdraw).
Returns the contract state after the call together with the message
result.  As in the source, the updated stream is persisted before the
outward transfer is attempted, and a failed transfer reports
WithdrawTransferFailed without rolling the persisted update back. -/
def recipient_withdraw (c : StreamsContract) (env : Env) (stream_id : Nat)
    (withdrawal_amount : Option Nat) :
    StreamsContract × Except ContractError Nat :=
  match validate_recipient_withdrawal_amount withdrawal_amount with
  | Except.error e => (c, Except.error e)
  | Except.ok _ =>
    match get_stream_by_id c stream_id with
    | Except.error e => (c, Except.error e)
    | Except.ok stream =>
      match stream.has_permission_to_withdraw env.caller with
      | Except.error e => (c, Except.error e)
      | Except.ok _ =>
        match stream.get_available_balance (get_current_time_in_seconds env) with
        | Except.error e => (c, Except.error e)
        | Except.ok available_balance =>
          let amount_to_withdraw := withdrawal_amount.getD available_balance
          if amount_to_withdraw > available_balance then
            (c, Except.error
              ContractError.ExpectedWithdrawalAmountExceedsStreamAvailableBalance)
          else
            match stream.withdraw amount_to_withdraw with
            | Except.error e => (c, Except.error e)
            | Except.ok stream2 =>
              let c2 :=
                { c with streams := Mapping.insert c.streams stream_id stream2 }
              if env.transfer_ok then
                (c2, Except.ok amount_to_withdraw)
              else
                (c2, Except.error ContractError.WithdrawTransferFailed)


/-- Fraction of the original balance unlocked at time t by the linear
vesting rule of Stream::get_available_balance (the not-finished branch). -/
def unlockedAt (s : Stream) (t : Nat) : Nat :=
  s.original_balance * (t - s.start_date) / (s.end_date - s.start_date)

/-- Contract states reachable from deployment through any sequence of
create_stream and recipient_withdraw calls, under arbitrary environments. -/
inductive Reachable : StreamsContract → Prop
  | init (deployer : Nat) : Reachable (StreamsContract.new deployer)
  | create (c : StreamsContract) (env : Env) (recipient : Nat)
      (end_date duration : Option Nat) :
      Reachable c → Reachable (create_stream c env recipient end_date duration).1
  | withdraw (c : StreamsContract) (env : Env) (stream_id : Nat)
      (withdrawal_amount : Option Nat) :
      Reachable c → Reachable (recipient_withdraw c env stream_id withdrawal_amount).1

/-- Structural invariant carried by every reachable contract state. -/
def ContractInv (c : StreamsContract) : Prop :=
  1 ≤ c.next_stream_id ∧
  ∀ id s, Mapping.get c.streams id = some s →
    id < c.next_stream_id ∧ s.current_balance ≤ s.original_balance ∧
      s.start_date < s.end_date

/-- Timed reachability: states reachable when the block time source is
non-decreasing across requests; the Nat index is a lower bound on the
current time.  The tick step lets time pass without a request. -/
inductive ReachableAt : Nat → StreamsContract → Prop
  | init (deployer t : Nat) : ReachableAt t (StreamsContract.new deployer)
  | create (t : Nat) (c : StreamsContract) (env : Env) (recipient : Nat)
      (end_date duration : Option Nat) :
      ReachableAt t c → t ≤ get_current_time_in_seconds env →
      ReachableAt (get_current_time_in_seconds env)
        (create_stream c env recipient end_date duration).1
  | withdraw (t : Nat) (c : StreamsContract) (env : Env) (stream_id : Nat)
      (withdrawal_amount : Option Nat) :
      ReachableAt t c → t ≤ get_current_time_in_seconds env →
      ReachableAt (get_current_time_in_seconds env)
        (recipient_withdraw c env stream_id withdrawal_amount).1
  | tick (t u : Nat) (c : StreamsContract) :
      ReachableAt t c → t ≤ u → ReachableAt u c

/-- Invariant carried by timed-reachable states: every stored stream was
created no later than now, has a positive duration, respects the balance
bound, and its withdrawn amount never exceeds the unlocked amount. -/
def TimedInv (t : Nat) (c : StreamsContract) : Prop :=
  ∀ id s, Mapping.get c.streams id = some s →
    s.current_balance ≤ s.original_balance ∧
    s.start_date < s.end_date ∧
    s.start_date ≤ t ∧
    s.original_balance - s.current_balance ≤ unlockedAt s (min t s.end_date)

theorem Mapping.get_insert (m : Mapping) (key : Nat) (value : Stream) (k : Nat) :
    Mapping.get (Mapping.insert m key value) k =
      if k = key then some value else Mapping.get m k := by
  induction m with
  | nil => simp [Mapping.insert, Mapping.get]
  | cons hd tl ih =>
    obtain ⟨k0, v0⟩ := hd
    by_cases h : k0 = key
    · subst h
      by_cases h2 : k = k0 <;> simp [Mapping.insert, Mapping.get, h2]
    · by_cases h2 : k = k0
      · subst h2
        simp [Mapping.insert, Mapping.get, h]
      · simp [Mapping.insert, Mapping.get, h, h2, ih]

theorem validate_withdrawal_ok (wa : Option Nat) (h : wa ≠ some 0) :
    validate_recipient_withdrawal_amount wa = Except.ok () := by
  cases wa with
  | none => simp [validate_recipient_withdrawal_amount]
  | some a =>
    simp [validate_recipient_withdrawal_amount, Option.get!]
    simpa using h

theorem validate_withdrawal_zero :
    validate_recipient_withdrawal_amount (some 0) =
      Except.error ContractError.WithdrawalAmountShouldBeGreaterThanZero := by
  simp [validate_recipient_withdrawal_amount, Option.get!]

theorem validate_end_date_ok_bound (ed d : Option Nat) (S e : Nat)
    (h : validate_and_generate_stream_end_date ed d S = Except.ok e) :
    S + STREAM_MINIMUM_DURATION ≤ e := by
  cases ed with
  | some a =>
    by_cases hlt : a < S + STREAM_MINIMUM_DURATION
    · simp [validate_and_generate_stream_end_date, validate_stream_end_date,
        Option.get!, hlt] at h
    · simp [validate_and_generate_stream_end_date, validate_stream_end_date,
        Option.get!, hlt] at h
      omega
  | none =>
    cases d with
    | none => simp [validate_and_generate_stream_end_date] at h
    | some b =>
      by_cases hlt : b < STREAM_MINIMUM_DURATION
      · simp [validate_and_generate_stream_end_date, validate_stream_duration,
          Option.get!, hlt] at h
      · simp [validate_and_generate_stream_end_date, validate_stream_duration,
          Option.get!, hlt] at h
        omega


theorem get_available_balance_eq (s : Stream) (t : Nat) :
    s.get_available_balance t =
      (if (if s.end_date < t then
            s.original_balance - (s.original_balance - s.current_balance)
          else unlockedAt s t - (s.original_balance - s.current_balance)) = 0 then
        Except.error ContractError.StreamAvailableBalanceIsZero
      else
        Except.ok (if s.end_date < t then
            s.original_balance - (s.original_balance - s.current_balance)
          else unlockedAt s t - (s.original_balance - s.current_balance))) := by
  by_cases hf : s.end_date < t <;>
    simp [Stream.get_available_balance, Stream.is_finished, Stream.total_duration,
      unlockedAt, hf]

theorem unlocked_le_original (s : Stream) (t : Nat) (ht : t ≤ s.end_date) :
    unlockedAt s t ≤ s.original_balance := by
  have h1 : t - s.start_date ≤ s.end_date - s.start_date := by omega
  have h2 : s.original_balance * (t - s.start_date) ≤
      s.original_balance * (s.end_date - s.start_date) :=
    Nat.mul_le_mul_left _ h1
  calc unlockedAt s t ≤
      s.original_balance * (s.end_date - s.start_date) / (s.end_date - s.start_date) :=
        Nat.div_le_div_right h2
    _ ≤ s.original_balance := by
        rcases Nat.eq_zero_or_pos (s.end_date - s.start_date) with h0 | h0
        · simp [h0]
        · exact Nat.le_of_eq (Nat.mul_div_cancel _ h0)

theorem get_available_balance_le_current (s : Stream) (t : Nat) (a : Nat)
    (h : s.get_available_balance t = Except.ok a) : a ≤ s.current_balance := by
  rw [get_available_balance_eq] at h
  by_cases hf : s.end_date < t
  · simp [hf] at h
    split at h
    · exact absurd h (by simp)
    · simp at h
      omega
  · have hu := unlocked_le_original s t (by omega)
    simp [hf] at h
    split at h
    · exact absurd h (by simp)
    · simp at h
      omega

theorem create_stream_cases (c : StreamsContract) (env : Env) (r : Nat)
    (ed d : Option Nat) :
    (∃ e, create_stream c env r ed d = (c, Except.error e)) ∨
    (∃ stream_end_date,
      validate_and_generate_stream_end_date ed d (get_current_time_in_seconds env) =
        Except.ok stream_end_date ∧
      create_stream c env r ed d =
        ({ c with
            streams := Mapping.insert c.streams c.next_stream_id
              (Stream.new env.caller r env.transferred_value
                (get_current_time_in_seconds env) stream_end_date)
            next_stream_id := c.next_stream_id + 1 },
         Except.ok c.next_stream_id)) := by
  cases hv : validate_stream_creation_parameters env.caller r env.transferred_value with
  | error e => exact Or.inl ⟨e, by simp [create_stream, hv]⟩
  | ok u =>
    cases hv2 : validate_and_generate_stream_end_date ed d
        (get_current_time_in_seconds env) with
    | error e => exact Or.inl ⟨e, by simp [create_stream, hv, hv2]⟩
    | ok sed => exact Or.inr ⟨sed, rfl, by simp [create_stream, hv, hv2]⟩

theorem recipient_withdraw_cases (c : StreamsContract) (env : Env) (sid : Nat)
    (wa : Option Nat) :
    (recipient_withdraw c env sid wa).1 = c ∨
    (∃ s a, Mapping.get c.streams sid = some s ∧
      validate_recipient_withdrawal_amount wa = Except.ok () ∧
      env.caller = s.recipient ∧
      s.get_available_balance (get_current_time_in_seconds env) = Except.ok a ∧
      wa.getD a ≤ a ∧ wa.getD a ≤ s.current_balance ∧
      recipient_withdraw c env sid wa =
        ({ c with streams := (Mapping.insert c.streams sid
            { s with current_balance := s.current_balance - wa.getD a }) },
         if env.transfer_ok then Except.ok (wa.getD a)
         else Except.error ContractError.WithdrawTransferFailed)) := by
  cases hv : validate_recipient_withdrawal_amount wa with
  | error e => exact Or.inl (by simp [recipient_withdraw, hv])
  | ok u =>
    cases hg : Mapping.get c.streams sid with
    | none => exact Or.inl (by simp [recipient_withdraw, get_stream_by_id, hv, hg])
    | some s =>
      by_cases hperm : env.caller = s.recipient
      · cases ha : s.get_available_balance (get_current_time_in_seconds env) with
        | error e =>
          exact Or.inl (by
            simp [recipient_withdraw, get_stream_by_id, Stream.has_permission_to_withdraw,
              hv, hg, hperm, ha])
        | ok a =>
          by_cases hamt : wa.getD a > a
          · exact Or.inl (by
              simp [recipient_withdraw, get_stream_by_id, Stream.has_permission_to_withdraw,
                hv, hg, hperm, ha, hamt])
          · have hle1 : wa.getD a ≤ a := Nat.not_lt.mp hamt
            have hle2 : wa.getD a ≤ s.current_balance :=
              Nat.le_trans hle1 (get_available_balance_le_current s _ a ha)
            refine Or.inr ⟨s, a, rfl, ?_, hperm, ha, hle1, hle2, ?_⟩
            · cases u
              rfl
            · by_cases ht : env.transfer_ok <;>
                simp [recipient_withdraw, get_stream_by_id,
                  Stream.has_permission_to_withdraw, Stream.withdraw,
                  hv, hg, hperm, ha, hamt, Nat.not_lt.mpr hle2, ht]
      · exact Or.inl (by
          simp [recipient_withdraw, get_stream_by_id, Stream.has_permission_to_withdraw,
            hv, hg, hperm])



theorem reachable_contractInv (c : StreamsContract) (h : Reachable c) :
    ContractInv c := by
  induction h with
  | init deployer =>
    exact ⟨Nat.le_refl 1, by simp [StreamsContract.new, Mapping.get]⟩
  | create c env r ed d hc ih =>
    rcases create_stream_cases c env r ed d with ⟨e, hce⟩ | ⟨sed, hsed, hcs⟩
    · rw [hce]
      exact ih
    · rw [hcs]
      dsimp only [ContractInv]
      obtain ⟨ih1, ih2⟩ := ih
      refine ⟨by omega, ?_⟩
      intro id s hget
      rw [Mapping.get_insert] at hget
      have hmin : STREAM_MINIMUM_DURATION = 300 := rfl
      have hbound := validate_end_date_ok_bound ed d _ sed hsed
      by_cases hid : id = c.next_stream_id
      · simp [hid] at hget
        subst hget
        refine ⟨by omega, Nat.le_refl _, by simp [Stream.new]; omega⟩
      · simp [hid] at hget
        obtain ⟨h1, h2, h3⟩ := ih2 id s hget
        exact ⟨by omega, h2, h3⟩
  | withdraw c env sid wa hc ih =>
    rcases recipient_withdraw_cases c env sid wa with hrw |
      ⟨s, a, hg, _, _, ha, hle1, hle2, hrw⟩
    · rw [hrw]
      exact ih
    · rw [hrw]
      dsimp only [ContractInv]
      obtain ⟨ih1, ih2⟩ := ih
      refine ⟨ih1, ?_⟩
      intro id t hget
      rw [Mapping.get_insert] at hget
      obtain ⟨h1, h2, h3⟩ := ih2 sid s hg
      by_cases hid : id = sid
      · simp [hid] at hget
        subst hget
        exact ⟨by omega, by simp; omega, by simpa using h3⟩
      · simp [hid] at hget
        exact ih2 id t hget

theorem get_available_balance_ok_cases (s : Stream) (t a : Nat)
    (h : s.get_available_balance t = Except.ok a) :
    a ≠ 0 ∧
    ((s.end_date < t ∧
        a = s.original_balance - (s.original_balance - s.current_balance)) ∨
      (t ≤ s.end_date ∧
        a = unlockedAt s t - (s.original_balance - s.current_balance))) := by
  rw [get_available_balance_eq] at h
  by_cases hf : s.end_date < t
  · simp [hf] at h
    split at h
    · exact absurd h (by simp)
    · simp at h
      refine ⟨by omega, Or.inl ⟨hf, by omega⟩⟩
  · simp [hf] at h
    split at h
    · exact absurd h (by simp)
    · simp at h
      refine ⟨by omega, Or.inr ⟨by omega, by omega⟩⟩



theorem unlockedAt_mono (s : Stream) (a b : Nat) (h : a ≤ b) :
    unlockedAt s a ≤ unlockedAt s b :=
  Nat.div_le_div_right (Nat.mul_le_mul_left _ (by omega))

theorem timedInv_mono (t u : Nat) (c : StreamsContract) (h : TimedInv t c)
    (htu : t ≤ u) : TimedInv u c := by
  intro id s hget
  obtain ⟨h1, h2, h3, h4⟩ := h id s hget
  exact ⟨h1, h2, by omega, Nat.le_trans h4 (unlockedAt_mono s _ _ (by omega))⟩

theorem unlockedAt_end (s : Stream) (h : s.start_date < s.end_date) :
    unlockedAt s s.end_date = s.original_balance := by
  unfold unlockedAt
  exact Nat.mul_div_cancel _ (by omega)

theorem unlockedAt_update (s : Stream) (x t : Nat) :
    unlockedAt { s with current_balance := x } t = unlockedAt s t := rfl

theorem reachableAt_timedInv (t : Nat) (c : StreamsContract)
    (h : ReachableAt t c) : TimedInv t c := by
  induction h with
  | init deployer t =>
    intro id s hget
    simp [StreamsContract.new, Mapping.get] at hget
  | create t c env r ed d hc hle ih =>
    rcases create_stream_cases c env r ed d with ⟨e, hce⟩ | ⟨sed, hsed, hcs⟩
    · rw [hce]
      exact timedInv_mono t _ c ih hle
    · rw [hcs]
      intro id s hget
      dsimp only at hget
      rw [Mapping.get_insert] at hget
      have hbound := validate_end_date_ok_bound ed d _ sed hsed
      have hmin : STREAM_MINIMUM_DURATION = 300 := rfl
      by_cases hid : id = c.next_stream_id
      · simp only [hid, if_pos rfl] at hget
        have hget2 := hget
        injection hget2 with hs
        subst hs
        refine ⟨Nat.le_refl _, by simp [Stream.new]; omega,
          by simp [Stream.new], by simp [Stream.new]⟩
      · simp [hid] at hget
        exact timedInv_mono t _ c ih hle id s hget
  | withdraw t c env sid wa hc hle ih =>
    rcases recipient_withdraw_cases c env sid wa with hrw |
      ⟨s, a, hg, hvv, hpp, ha, hle1, hle2, hrw⟩
    · rw [hrw]
      exact timedInv_mono t _ c ih hle
    · rw [hrw]
      have ihm := timedInv_mono t _ c ih hle
      intro id u hget
      dsimp only at hget
      rw [Mapping.get_insert] at hget
      obtain ⟨i1, i2, i3, i4⟩ := ihm sid s hg
      by_cases hid : id = sid
      · simp only [hid, if_pos rfl] at hget
        injection hget with hu
        subst hu
        obtain ⟨hane, hcase⟩ := get_available_balance_ok_cases s _ a ha
        refine ⟨by simp; omega, by simpa using i2, by simpa using i3, ?_⟩
        simp only [unlockedAt_update]
        rcases hcase with ⟨hft, haeq⟩ | ⟨hnf, haeq⟩
        · have hmeq : min (get_current_time_in_seconds env) s.end_date = s.end_date := by
            omega
          rw [hmeq, unlockedAt_end s i2]
          omega
        · have hmeq : min (get_current_time_in_seconds env) s.end_date =
              get_current_time_in_seconds env := by omega
          rw [hmeq] at i4 ⊢
          omega
      · simp [hid] at hget
        exact ihm id u hget
  | tick t u c hc hle ih =>
    exact timedInv_mono t u c ih hle

/-- Claim C1: in every reachable contract state every stored stream satisfies
current_balance ≤ original_balance (the lower bound 0 ≤ current_balance is
implicit in Nat); Stream.new sets current_balance = original_balance;
Stream.withdraw succeeds only for an amount it has checked to be at most
current_balance and then subtracts exactly that amount; and no contract
operation ever increases a stored stream's current_balance. -/
theorem reachable_stream_balance_invariant (c : StreamsContract)
    (h : Reachable c) :
    (∀ id s, Mapping.get c.streams id = some s →
      s.current_balance ≤ s.original_balance) ∧
    (∀ payer recipient funds S E,
      (Stream.new payer recipient funds S E).current_balance =
        (Stream.new payer recipient funds S E).original_balance) ∧
    (∀ s amount s2, Stream.withdraw s amount = Except.ok s2 →
      amount ≤ s.current_balance ∧
      s2.current_balance = s.current_balance - amount) ∧
    (∀ env r ed d id s s2,
      Mapping.get c.streams id = some s →
      Mapping.get (create_stream c env r ed d).1.streams id = some s2 →
      s2.current_balance ≤ s.current_balance) ∧
    (∀ env sid wa id s s2,
      Mapping.get c.streams id = some s →
      Mapping.get (recipient_withdraw c env sid wa).1.streams id = some s2 →
      s2.current_balance ≤ s.current_balance) := by
  obtain ⟨hinv1, hinv2⟩ := reachable_contractInv c h
  refine ⟨fun id s hg => (hinv2 id s hg).2.1, fun p r f S E => rfl, ?_, ?_, ?_⟩
  · intro s amount s2 hw
    unfold Stream.withdraw at hw
    split at hw
    · exact absurd hw (by simp)
    · have hle : amount ≤ s.current_balance := by omega
      injection hw with hw2
      subst hw2
      exact ⟨hle, rfl⟩
  · intro env r ed d id s s2 hg hg2
    rcases create_stream_cases c env r ed d with ⟨e, hce⟩ | ⟨sed, hsed, hcs⟩
    · rw [hce] at hg2
      dsimp only at hg2
      rw [hg] at hg2
      injection hg2 with hg3
      subst hg3
      exact Nat.le_refl _
    · rw [hcs] at hg2
      dsimp only at hg2
      rw [Mapping.get_insert] at hg2
      have hlt := (hinv2 id s hg).1
      by_cases hid : id = c.next_stream_id
      · omega
      · rw [if_neg hid, hg] at hg2
        injection hg2 with hg3
        subst hg3
        exact Nat.le_refl _
  · intro env sid wa id s s2 hg hg2
    rcases recipient_withdraw_cases c env sid wa with hrw |
      ⟨s0, a, hg0, hvv, hpp, ha, hle1, hle2, hrw⟩
    · rw [hrw, hg] at hg2
      injection hg2 with hg3
      subst hg3
      exact Nat.le_refl _
    · rw [hrw] at hg2
      dsimp only at hg2
      rw [Mapping.get_insert] at hg2
      by_cases hid : id = sid
      · subst hid
        rw [hg] at hg0
        injection hg0 with hg4
        subst hg4
        rw [if_pos rfl] at hg2
        injection hg2 with hg3
        subst hg3
        simp
      · rw [if_neg hid, hg] at hg2
        injection hg2 with hg3
        subst hg3
        exact Nat.le_refl _

theorem reachable_stream_balance_invariant_witness :
    (Stream.new 7 1 5 100 400).current_balance ≤
      (Stream.new 7 1 5 100 400).original_balance :=
  (reachable_stream_balance_invariant
    (create_stream (StreamsContract.new 0)
      { caller := 7, transferred_value := 5, block_timestamp := 100000,
        transfer_ok := true } 1 none (some 300)).1
    (Reachable.create (StreamsContract.new 0)
      { caller := 7, transferred_value := 5, block_timestamp := 100000,
        transfer_ok := true } 1 none (some 300)
      (Reachable.init 0))).1 1 (Stream.new 7 1 5 100 400) (by decide)

/-- Claim C2: for a fresh stream (no prior withdrawal) with start S, end E,
E > S, original balance O, at any S ≤ t ≤ E the computed available balance
is floor(O * (t - S) / (E - S)); get_available_balance returns it as Ok
exactly when it is nonzero and fails with StreamAvailableBalanceIsZero
exactly when it is zero; in particular a stream of funds 1 and duration
10000 queried at creation time fails with StreamAvailableBalanceIsZero. -/
theorem linear_vesting_exactness :
    (∀ payer recipient O S E t, S < E → S ≤ t → t ≤ E →
      (O * (t - S) / (E - S) ≠ 0 →
        (Stream.new payer recipient O S E).get_available_balance t =
          Except.ok (O * (t - S) / (E - S))) ∧
      (O * (t - S) / (E - S) = 0 →
        (Stream.new payer recipient O S E).get_available_balance t =
          Except.error ContractError.StreamAvailableBalanceIsZero)) ∧
    (∀ payer recipient S,
      (Stream.new payer recipient 1 S (S + 10000)).get_available_balance S =
        Except.error ContractError.StreamAvailableBalanceIsZero) := by
  constructor
  · intro p r O S E t hSE hSt htE
    have hf : ¬ E < t := by omega
    constructor <;> intro hz <;>
      simp [get_available_balance_eq, unlockedAt, Stream.new, hf, hz]
  · intro p r S
    have hf : ¬ S + 10000 < S := by omega
    simp [get_available_balance_eq, unlockedAt, Stream.new, hf]

theorem linear_vesting_exactness_witness :
    0 < 300 ∧ 0 ≤ 150 ∧ 150 ≤ 300 ∧ 10 * (150 - 0) / (300 - 0) ≠ 0 ∧
    (Stream.new 0 1 10 0 300).get_available_balance 150 =
      Except.ok (10 * (150 - 0) / (300 - 0)) :=
  ⟨by decide, by decide, by decide, by decide,
    (linear_vesting_exactness.1 0 1 10 0 300 150 (by decide) (by decide)
      (by decide)).1 (by decide)⟩

/-- Claim C5: for any stream with current_balance ≤ original_balance,
end_date > start_date and query time at or after start_date, whenever
get_available_balance returns Ok a, the value a never exceeds
current_balance. -/
theorem available_balance_never_exceeds_current (s : Stream) (t a : Nat)
    (hbal : s.current_balance ≤ s.original_balance)
    (hdur : s.start_date < s.end_date)
    (htime : s.start_date ≤ t)
    (h : s.get_available_balance t = Except.ok a) :
    a ≤ s.current_balance :=
  get_available_balance_le_current s t a h

theorem available_balance_never_exceeds_current_witness :
    (Stream.new 0 1 10 0 300).current_balance ≤
      (Stream.new 0 1 10 0 300).original_balance ∧
    5 ≤ (Stream.new 0 1 10 0 300).current_balance :=
  ⟨by decide,
    available_balance_never_exceeds_current (Stream.new 0 1 10 0 300) 150 5
      (by decide) (by decide) (by decide) (by decide)⟩

/-- Claim C6: stream identifiers start at 1 (set by the constructor) and
are strictly increasing across successful create_stream calls: a success
returns the current next_stream_id and bumps it by one, while any failed
create_stream call leaves the state, next_stream_id included, unchanged,
so the next successful call returns the identifier the failed call would
have returned. -/
theorem create_stream_id_monotonic (deployer : Nat) (c : StreamsContract)
    (env : Env) (r : Nat) (ed d : Option Nat) :
    (StreamsContract.new deployer).next_stream_id = 1 ∧
    (∀ i, (create_stream c env r ed d).2 = Except.ok i →
      i = c.next_stream_id ∧
      (create_stream c env r ed d).1.next_stream_id = c.next_stream_id + 1) ∧
    (∀ e, (create_stream c env r ed d).2 = Except.error e →
      (create_stream c env r ed d).1 = c) := by
  refine ⟨rfl, ?_, ?_⟩
  · intro i hok
    rcases create_stream_cases c env r ed d with ⟨e, hce⟩ | ⟨sed, hsed, hcs⟩
    · rw [hce] at hok
      exact absurd hok (by simp)
    · rw [hcs] at hok ⊢
      dsimp only at hok ⊢
      injection hok with hok2
      exact ⟨hok2.symm, rfl⟩
  · intro e herr
    rcases create_stream_cases c env r ed d with ⟨e2, hce⟩ | ⟨sed, hsed, hcs⟩
    · rw [hce]
    · rw [hcs] at herr
      exact absurd herr (by simp)

theorem create_stream_id_monotonic_witness :
    1 = (StreamsContract.new 0).next_stream_id ∧
    (create_stream (StreamsContract.new 0)
      { caller := 7, transferred_value := 5, block_timestamp := 100000,
        transfer_ok := true } 1 none (some 300)).1.next_stream_id =
      (StreamsContract.new 0).next_stream_id + 1 :=
  (create_stream_id_monotonic 0 (StreamsContract.new 0)
    { caller := 7, transferred_value := 5, block_timestamp := 100000,
      transfer_ok := true } 1 none (some 300)).2.1 1 (by decide)

/-- Claim C3: when recipient_withdraw passes every validation (amount
check, stream lookup, authorization, available-balance computation,
amount ≤ available) but the outward transfer fails, it returns
WithdrawTransferFailed while the stream stored under stream_id has
current_balance already decremented and persisted; every other error
outcome of create_stream and recipient_withdraw leaves the contract state
unchanged. -/
theorem failed_transfer_keeps_decrement (c : StreamsContract) (env : Env)
    (sid : Nat) (wa : Option Nat) :
    (∀ s a, validate_recipient_withdrawal_amount wa = Except.ok () →
      Mapping.get c.streams sid = some s →
      env.caller = s.recipient →
      s.get_available_balance (get_current_time_in_seconds env) = Except.ok a →
      wa.getD a ≤ a →
      env.transfer_ok = false →
      recipient_withdraw c env sid wa =
        ({ c with streams := (Mapping.insert c.streams sid
            { s with current_balance := s.current_balance - wa.getD a }) },
         Except.error ContractError.WithdrawTransferFailed)) ∧
    (∀ r ed d e, (create_stream c env r ed d).2 = Except.error e →
      (create_stream c env r ed d).1 = c) ∧
    (∀ e, e ≠ ContractError.WithdrawTransferFailed →
      (recipient_withdraw c env sid wa).2 = Except.error e →
      (recipient_withdraw c env sid wa).1 = c) := by
  refine ⟨?_, ?_, ?_⟩
  · intro s a hv hg hperm ha hle hto
    have hamt : ¬ wa.getD a > a := by omega
    have hle2 : wa.getD a ≤ s.current_balance :=
      Nat.le_trans hle (get_available_balance_le_current s _ a ha)
    simp [recipient_withdraw, get_stream_by_id, Stream.has_permission_to_withdraw,
      Stream.withdraw, hv, hg, hperm, ha, hamt, Nat.not_lt.mpr hle2, hto]
  · intro r ed d e herr
    rcases create_stream_cases c env r ed d with ⟨e2, hce⟩ | ⟨sed, hsed, hcs⟩
    · rw [hce]
    · rw [hcs] at herr
      exact absurd herr (by simp)
  · intro e hne herr
    rcases recipient_withdraw_cases c env sid wa with hrw |
      ⟨s, a, hg, hvv, hpp, ha, hle1, hle2, hrw⟩
    · exact hrw
    · rw [hrw] at herr
      dsimp only at herr
      by_cases hto : env.transfer_ok
      · rw [if_pos hto] at herr
        exact absurd herr (by simp)
      · rw [if_neg hto] at herr
        injection herr with herr2
        exact absurd herr2.symm hne

theorem failed_transfer_keeps_decrement_witness :
    recipient_withdraw
      { owner := 0, next_stream_id := 2,
        streams := [(1, Stream.new 0 1 3000000000 0 300)] }
      { caller := 1, transferred_value := 0, block_timestamp := 300000,
        transfer_ok := false } 1 none =
      ({ owner := 0, next_stream_id := 2,
         streams := [(1, { Stream.new 0 1 3000000000 0 300 with
            current_balance := 0 })] },
       Except.error ContractError.WithdrawTransferFailed) :=
  (failed_transfer_keeps_decrement
    { owner := 0, next_stream_id := 2,
      streams := [(1, Stream.new 0 1 3000000000 0 300)] }
    { caller := 1, transferred_value := 0, block_timestamp := 300000,
      transfer_ok := false } 1 none).1
    (Stream.new 0 1 3000000000 0 300) 3000000000
    (by decide) (by decide) (by decide) (by decide) (by decide) rfl

/-- Claim C4: strictly after end_date the available balance computed by
get_available_balance is original_balance - (original_balance -
current_balance), independent of the elapsed time; under the balance
invariant and a nonzero balance this is Ok current_balance; scenario: for
a fresh stream with funds 3000000000, start 0 and end 300,
recipient_withdraw at time 300 by the recipient returns 3000000000 and
stores current_balance 0. -/
theorem full_vest_after_end_date :
    (∀ (s : Stream) (t : Nat), s.end_date < t →
      s.get_available_balance t =
        (if s.original_balance - (s.original_balance - s.current_balance) = 0 then
          Except.error ContractError.StreamAvailableBalanceIsZero
        else
          Except.ok (s.original_balance - (s.original_balance - s.current_balance)))) ∧
    (∀ (s : Stream) (t : Nat), s.end_date < t → s.current_balance ≤ s.original_balance →
      s.current_balance ≠ 0 →
      s.get_available_balance t = Except.ok s.current_balance) ∧
    (recipient_withdraw
        { owner := 0, next_stream_id := 2,
          streams := [(1, Stream.new 0 1 3000000000 0 300)] }
        { caller := 1, transferred_value := 0, block_timestamp := 300000,
          transfer_ok := true } 1 none =
      ({ owner := 0, next_stream_id := 2,
         streams := [(1, { Stream.new 0 1 3000000000 0 300 with
            current_balance := 0 })] },
       Except.ok 3000000000)) := by
  refine ⟨?_, ?_, by decide⟩
  · intro s t ht
    rw [get_available_balance_eq]
    simp [ht]
  · intro s t ht hbal hnz
    rw [get_available_balance_eq]
    have hv : s.original_balance - (s.original_balance - s.current_balance) =
        s.current_balance := by omega
    simp [ht, hv, hnz]

theorem full_vest_after_end_date_witness :
    (Stream.new 0 1 5 0 300).end_date < 301 ∧
    (Stream.new 0 1 5 0 300).get_available_balance 301 =
      Except.ok (Stream.new 0 1 5 0 300).current_balance :=
  ⟨by decide,
    full_vest_after_end_date.2.1 (Stream.new 0 1 5 0 300) 301
      (by decide) (by decide) (by decide)⟩

/-- Claim C7: create_stream applies its validations in a fixed order with
the first failing check determining the error: caller = recipient gives
RecipientCannotBePayer; then zero funds gives EmptyFunds; then both date
parameters absent gives EndDateAndDurationAreEmpty; then a present
end_date (taking precedence over any duration) fails with
StreamEndDateShouldBeLater exactly when end_date < start_date +
MINIMUM_DURATION and otherwise succeeds with that end date; otherwise a
present duration fails with StreamDurationShouldBeGreater exactly when
duration < MINIMUM_DURATION and otherwise succeeds with end date
start_date + duration; MINIMUM_DURATION is the fixed constant 300. -/
theorem create_stream_validation_order (c : StreamsContract) (env : Env)
    (r : Nat) (ed d : Option Nat) :
    STREAM_MINIMUM_DURATION = 300 ∧
    (env.caller = r →
      create_stream c env r ed d =
        (c, Except.error ContractError.RecipientCannotBePayer)) ∧
    (env.caller ≠ r → env.transferred_value = 0 →
      create_stream c env r ed d = (c, Except.error ContractError.EmptyFunds)) ∧
    (env.caller ≠ r → env.transferred_value ≠ 0 → ed = none → d = none →
      create_stream c env r ed d =
        (c, Except.error ContractError.EndDateAndDurationAreEmpty)) ∧
    (∀ e, env.caller ≠ r → env.transferred_value ≠ 0 → ed = some e →
      (e < get_current_time_in_seconds env + STREAM_MINIMUM_DURATION →
        create_stream c env r ed d =
          (c, Except.error ContractError.StreamEndDateShouldBeLater)) ∧
      (get_current_time_in_seconds env + STREAM_MINIMUM_DURATION ≤ e →
        create_stream c env r ed d =
          ({ c with
              streams := (Mapping.insert c.streams c.next_stream_id
                (Stream.new env.caller r env.transferred_value
                  (get_current_time_in_seconds env) e))
              next_stream_id := c.next_stream_id + 1 },
           Except.ok c.next_stream_id))) ∧
    (∀ dur, env.caller ≠ r → env.transferred_value ≠ 0 → ed = none →
      d = some dur →
      (dur < STREAM_MINIMUM_DURATION →
        create_stream c env r ed d =
          (c, Except.error ContractError.StreamDurationShouldBeGreater)) ∧
      (STREAM_MINIMUM_DURATION ≤ dur →
        create_stream c env r ed d =
          ({ c with
              streams := (Mapping.insert c.streams c.next_stream_id
                (Stream.new env.caller r env.transferred_value
                  (get_current_time_in_seconds env)
                  (get_current_time_in_seconds env + dur)))
              next_stream_id := c.next_stream_id + 1 },
           Except.ok c.next_stream_id))) := by
  refine ⟨rfl, ?_, ?_, ?_, ?_, ?_⟩
  · intro hcr
    simp [create_stream, validate_stream_creation_parameters, hcr]
  · intro hcr hf
    simp [create_stream, validate_stream_creation_parameters, hcr, hf]
  · intro hcr hf hed hd
    simp [create_stream, validate_stream_creation_parameters,
      validate_and_generate_stream_end_date, hcr, hf, hed, hd]
  · intro e hcr hf hed
    subst hed
    constructor
    · intro hcmp
      simp [create_stream, validate_stream_creation_parameters,
        validate_and_generate_stream_end_date, validate_stream_end_date,
        Option.get!, hcr, hf, hcmp]
    · intro hcmp
      have hcmp2 : ¬ e < get_current_time_in_seconds env + STREAM_MINIMUM_DURATION := by
        omega
      simp [create_stream, validate_stream_creation_parameters,
        validate_and_generate_stream_end_date, validate_stream_end_date,
        Option.get!, hcr, hf, hcmp2]
  · intro dur hcr hf hed hd
    subst hed
    subst hd
    constructor
    · intro hcmp
      simp [create_stream, validate_stream_creation_parameters,
        validate_and_generate_stream_end_date, validate_stream_duration,
        Option.get!, hcr, hf, hcmp]
    · intro hcmp
      have hcmp2 : ¬ dur < STREAM_MINIMUM_DURATION := by omega
      simp [create_stream, validate_stream_creation_parameters,
        validate_and_generate_stream_end_date, validate_stream_duration,
        Option.get!, hcr, hf, hcmp2]

theorem create_stream_validation_order_witness :
    create_stream (StreamsContract.new 0)
      { caller := 5, transferred_value := 9, block_timestamp := 100000,
        transfer_ok := true } 5 none none =
      ((StreamsContract.new 0), Except.error ContractError.RecipientCannotBePayer) :=
  (create_stream_validation_order (StreamsContract.new 0)
    { caller := 5, transferred_value := 9, block_timestamp := 100000,
      transfer_ok := true } 5 none none).2.1 rfl

/-- Claim C8: recipient_withdraw applies its checks in a fixed order with
the first failure determining the error: withdrawal_amount = some 0 gives
WithdrawalAmountShouldBeGreaterThanZero even when the stream does not
exist; then a missing stream gives StreamDoesNotExist; then a caller other
than the recipient gives Unauthorized with no state change; then a zero
available balance propagates StreamAvailableBalanceIsZero; then, with the
amount defaulting to the full available balance when absent, an amount
exceeding the available balance gives
ExpectedWithdrawalAmountExceedsStreamAvailableBalance. -/
theorem recipient_withdraw_validation_order (c : StreamsContract) (env : Env)
    (sid : Nat) (wa : Option Nat) :
    (wa = some 0 →
      recipient_withdraw c env sid wa =
        (c, Except.error ContractError.WithdrawalAmountShouldBeGreaterThanZero)) ∧
    (wa ≠ some 0 → Mapping.get c.streams sid = none →
      recipient_withdraw c env sid wa =
        (c, Except.error ContractError.StreamDoesNotExist)) ∧
    (∀ s, wa ≠ some 0 → Mapping.get c.streams sid = some s →
      env.caller ≠ s.recipient →
      recipient_withdraw c env sid wa =
        (c, Except.error ContractError.Unauthorized)) ∧
    (∀ s, wa ≠ some 0 → Mapping.get c.streams sid = some s →
      env.caller = s.recipient →
      s.get_available_balance (get_current_time_in_seconds env) =
        Except.error ContractError.StreamAvailableBalanceIsZero →
      recipient_withdraw c env sid wa =
        (c, Except.error ContractError.StreamAvailableBalanceIsZero)) ∧
    (∀ s a, wa ≠ some 0 → Mapping.get c.streams sid = some s →
      env.caller = s.recipient →
      s.get_available_balance (get_current_time_in_seconds env) = Except.ok a →
      a < wa.getD a →
      recipient_withdraw c env sid wa =
        (c, Except.error
          ContractError.ExpectedWithdrawalAmountExceedsStreamAvailableBalance)) := by
  refine ⟨?_, ?_, ?_, ?_, ?_⟩
  · intro hwa
    subst hwa
    simp [recipient_withdraw, validate_withdrawal_zero]
  · intro hwa hg
    simp [recipient_withdraw, get_stream_by_id, validate_withdrawal_ok wa hwa, hg]
  · intro s hwa hg hperm
    simp [recipient_withdraw, get_stream_by_id, Stream.has_permission_to_withdraw,
      validate_withdrawal_ok wa hwa, hg, hperm]
  · intro s hwa hg hperm ha
    simp [recipient_withdraw, get_stream_by_id, Stream.has_permission_to_withdraw,
      validate_withdrawal_ok wa hwa, hg, hperm, ha]
  · intro s a hwa hg hperm ha hgt
    simp [recipient_withdraw, get_stream_by_id, Stream.has_permission_to_withdraw,
      validate_withdrawal_ok wa hwa, hg, hperm, ha, hgt]

theorem recipient_withdraw_validation_order_witness :
    recipient_withdraw
      { owner := 0, next_stream_id := 2,
        streams := [(1, Stream.new 0 1 3000000000 0 300)] }
      { caller := 2, transferred_value := 0, block_timestamp := 300000,
        transfer_ok := true } 1 (some 100) =
      ({ owner := 0, next_stream_id := 2,
         streams := [(1, Stream.new 0 1 3000000000 0 300)] },
       Except.error ContractError.Unauthorized) :=
  (recipient_withdraw_validation_order
    { owner := 0, next_stream_id := 2,
      streams := [(1, Stream.new 0 1 3000000000 0 300)] }
    { caller := 2, transferred_value := 0, block_timestamp := 300000,
      transfer_ok := true } 1 (some 100)).2.2.1
    (Stream.new 0 1 3000000000 0 300) (by decide) (by decide) (by decide)

/-- Claim C9: under the preconditions that streams start at their creation
time, that the time source is non-decreasing across requests, and that
every past withdrawal was validated against the available balance at its
time (all captured by timed reachability), none of the three subtractions
in get_available_balance underflows at any query time t2 at or after the
current time: start_date ≤ t2 (elapsed time), current_balance ≤
original_balance (withdrawn balance), and, when the stream is not
finished, balance_withdrawn ≤ unlocked_balance. -/
theorem get_available_balance_no_underflow (t : Nat) (c : StreamsContract)
    (id : Nat) (s : Stream) (t2 : Nat)
    (hr : ReachableAt t c) (hg : Mapping.get c.streams id = some s)
    (ht : t ≤ t2) :
    s.start_date ≤ t2 ∧
    s.current_balance ≤ s.original_balance ∧
    (¬ s.end_date < t2 →
      s.original_balance - s.current_balance ≤ unlockedAt s t2) := by
  have hi := timedInv_mono t t2 c (reachableAt_timedInv t c hr) ht
  obtain ⟨h1, h2, h3, h4⟩ := hi id s hg
  refine ⟨h3, h1, ?_⟩
  intro hnf
  have hm : min t2 s.end_date = t2 := by omega
  rwa [hm] at h4

theorem get_available_balance_no_underflow_witness :
    (Stream.new 7 1 5 100 400).start_date ≤ 200 ∧
    (Stream.new 7 1 5 100 400).current_balance ≤
      (Stream.new 7 1 5 100 400).original_balance ∧
    (¬ (Stream.new 7 1 5 100 400).end_date < 200 →
      (Stream.new 7 1 5 100 400).original_balance -
        (Stream.new 7 1 5 100 400).current_balance ≤
        unlockedAt (Stream.new 7 1 5 100 400) 200) :=
  get_available_balance_no_underflow 100
    (create_stream (StreamsContract.new 0)
      { caller := 7, transferred_value := 5, block_timestamp := 100000,
        transfer_ok := true } 1 none (some 300)).1
    1 (Stream.new 7 1 5 100 400) 200
    (ReachableAt.create 100 (StreamsContract.new 0)
      { caller := 7, transferred_value := 5, block_timestamp := 100000,
        transfer_ok := true } 1 none (some 300)
      (ReachableAt.init 0 100) (by decide))
    (by decide) (by decide)

theorem validate_creation_error_cases (p r f : Nat) (e : ContractError)
    (h : validate_stream_creation_parameters p r f = Except.error e) :
    e = ContractError.RecipientCannotBePayer ∨ e = ContractError.EmptyFunds := by
  unfold validate_stream_creation_parameters at h
  split at h
  · left
    injection h with h2
    exact h2.symm
  · split at h
    · right
      injection h with h2
      exact h2.symm
    · exact absurd h (by simp)

theorem validate_generate_error_cases (ed d : Option Nat) (S : Nat)
    (e : ContractError)
    (h : validate_and_generate_stream_end_date ed d S = Except.error e) :
    e = ContractError.EndDateAndDurationAreEmpty ∨
    e = ContractError.StreamEndDateShouldBeLater ∨
    e = ContractError.StreamDurationShouldBeGreater := by
  cases ed with
  | some a =>
    by_cases hlt : a < S + STREAM_MINIMUM_DURATION <;>
      simp [validate_and_generate_stream_end_date, validate_stream_end_date,
        Option.get!, hlt] at h <;> simp [h]
  | none =>
    cases d with
    | none =>
      simp [validate_and_generate_stream_end_date] at h
      simp [h]
    | some b =>
      by_cases hlt : b < STREAM_MINIMUM_DURATION <;>
        simp [validate_and_generate_stream_end_date, validate_stream_duration,
          Option.get!, hlt] at h <;> simp [h]

theorem get_stream_by_id_error_cases (c : StreamsContract) (i : Nat)
    (e : ContractError) (h : get_stream_by_id c i = Except.error e) :
    e = ContractError.StreamDoesNotExist := by
  unfold get_stream_by_id at h
  split at h
  · exact absurd h (by simp)
  · injection h with h2
    exact h2.symm

theorem validate_withdrawal_error_cases (wa : Option Nat) (e : ContractError)
    (h : validate_recipient_withdrawal_amount wa = Except.error e) :
    e = ContractError.WithdrawalAmountShouldBeGreaterThanZero := by
  unfold validate_recipient_withdrawal_amount at h
  split at h
  · injection h with h2
    exact h2.symm
  · exact absurd h (by simp)

theorem get_available_balance_error_cases (s : Stream) (t : Nat)
    (e : ContractError)
    (h : s.get_available_balance t = Except.error e) :
    e = ContractError.StreamAvailableBalanceIsZero := by
  rw [get_available_balance_eq] at h
  split at h <;> split at h <;>
    first
      | (injection h with h2
         exact h2.symm)
      | exact absurd h (by simp)

/-- Claim C10: validate_and_generate_stream_end_date always returns through
one of its explicit branches, so its final fallback Err(Unexpected) is
unreachable, and the Unexpected error variant is never returned by
create_stream, recipient_withdraw or get_stream_by_id. -/
theorem unexpected_error_never_returned (ed d : Option Nat) (S : Nat)
    (c : StreamsContract) (env : Env) (r sid : Nat) (wa : Option Nat)
    (i : Nat) :
    validate_and_generate_stream_end_date ed d S ≠
      Except.error ContractError.Unexpected ∧
    (create_stream c env r ed d).2 ≠ Except.error ContractError.Unexpected ∧
    (recipient_withdraw c env sid wa).2 ≠
      Except.error ContractError.Unexpected ∧
    get_stream_by_id c i ≠ Except.error ContractError.Unexpected := by
  refine ⟨?_, ?_, ?_, ?_⟩
  · intro h
    rcases validate_generate_error_cases ed d S _ h with h2 | h2 | h2 <;>
      exact ContractError.noConfusion h2
  · intro h
    cases hv : validate_stream_creation_parameters env.caller r
        env.transferred_value with
    | error e =>
      simp [create_stream, hv] at h
      rcases validate_creation_error_cases _ _ _ e hv with h2 | h2 <;> simp_all
    | ok u =>
      cases hv2 : validate_and_generate_stream_end_date ed d
          (get_current_time_in_seconds env) with
      | error e =>
        simp [create_stream, hv, hv2] at h
        rcases validate_generate_error_cases _ _ _ e hv2 with h2 | h2 | h2 <;>
          simp_all
      | ok sed =>
        simp [create_stream, hv, hv2] at h
  · intro h
    cases hv : validate_recipient_withdrawal_amount wa with
    | error e =>
      simp [recipient_withdraw, hv] at h
      have h3 := validate_withdrawal_error_cases wa e hv
      simp_all
    | ok u =>
      cases hg : Mapping.get c.streams sid with
      | none =>
        simp [recipient_withdraw, get_stream_by_id, hv, hg] at h
      | some s =>
        by_cases hperm : env.caller = s.recipient
        · cases ha : s.get_available_balance (get_current_time_in_seconds env) with
          | error e =>
            have h3 := get_available_balance_error_cases s _ e ha
            subst h3
            simp [recipient_withdraw, get_stream_by_id,
              Stream.has_permission_to_withdraw, hv, hg, hperm, ha] at h
          | ok a =>
            by_cases hamt : wa.getD a > a
            · simp [recipient_withdraw, get_stream_by_id,
                Stream.has_permission_to_withdraw, hv, hg, hperm, ha, hamt] at h
            · have hle2 : wa.getD a ≤ s.current_balance :=
                Nat.le_trans (Nat.not_lt.mp hamt)
                  (get_available_balance_le_current s _ a ha)
              by_cases ht : env.transfer_ok <;>
                simp [recipient_withdraw, get_stream_by_id,
                  Stream.has_permission_to_withdraw, Stream.withdraw,
                  hv, hg, hperm, ha, hamt, Nat.not_lt.mpr hle2, ht] at h
        · simp [recipient_withdraw, get_stream_by_id,
            Stream.has_permission_to_withdraw, hv, hg, hperm] at h
  · intro h
    have h3 := get_stream_by_id_error_cases c i _ h
    exact ContractError.noConfusion h3

theorem unexpected_error_never_returned_witness :
    validate_and_generate_stream_end_date none none 0 ≠
      Except.error ContractError.Unexpected :=
  (unexpected_error_never_returned none none 0 (StreamsContract.new 0)
    { caller := 0, transferred_value := 0, block_timestamp := 0,
      transfer_ok := true } 0 0 none 0).1

end Roloi
